import Mathlib

/-
  Verification development for `video-to-webm.py`.

  The script converts video files to size-constrained webm stickers.  We give a
  shallow embedding of its core logic:

  * `prompt`            — the interactive yes/no gate (source lines 100-108);
  * `firstStream`, `parseFrameRate`
                        — the post-probe metadata handling (lines 192-195),
                          with the partial operations (list indexing, rational
                          parsing with integer division) made explicit;
  * `scaleSection`, `fpsSection`, `speedSection`, `planStage`
                        — the planning decisions of `process_one` (lines 199-238);
  * `encodeStage`       — the two-attempt size-constrained encode loop
                          (lines 240-276);
  * `process_one`       — the whole per-job pipeline (lines 177-276), reported
                          as an outcome, an ordered event trace, the list of
                          applied filter steps, the reassembly frame rate passed
                          to the png-sequence encode, the encode attempts, and
                          whether the output file exists afterwards;
  * `mainRun`           — the batch flow of `main` (lines 279-321).

  Interactive input is modelled as a stream of lines (`Nat → List Char`);
  a prompt in auto-yes mode consumes no line, otherwise exactly one.
  Floating point numbers of the source (durations, frame rates) are modelled
  as rationals; the python float arithmetic involved in the claims is exact
  division, so the rational model matches the formulas of the code.
-/

namespace VideoToWebm

/-- Configuration coming from the CLI: the `--yes` flag and the tri-state
`--nearest` flag (`none` = unset, `some b` = explicitly set to `b`). -/
structure Cfg where
  yes : Bool
  nearest : Option Bool
deriving DecidableEq

/-- One entry of `FFProbeInfo.streams`, as validated by the pydantic model
`FFProbeInfoStream` (source lines 69-73).  `width`/`height` are ints,
`duration` a float (modelled as a rational), `avg_frame_rate` a raw string. -/
structure FFProbeInfoStream where
  width : ℤ
  height : ℤ
  duration : ℚ
  avg_frame_rate : String
deriving DecidableEq

/-- The pydantic model `FFProbeInfo` (source lines 76-77): a list of streams,
which may validate successfully even when empty. -/
structure FFProbeInfo where
  streams : List FFProbeInfoStream
deriving DecidableEq

/-- Python builtin exceptions that the metadata handling of `process_one` can
raise (they are not classified by the script; only the generic per-job
`except Exception` of `main` catches them). -/
inductive MetaError
  | indexError
  | valueError
  | zeroDivisionError
deriving DecidableEq

/-- Result of a partial (exception-throwing) computation. -/
inductive ParseOut (α : Type)
  | ok (a : α)
  | err (e : MetaError)
deriving DecidableEq

/-- `input_info.streams[0]` (source line 192): raises `IndexError` on an empty
stream list. -/
def firstStream (info : FFProbeInfo) : ParseOut FFProbeInfoStream :=
  match info.streams with
  | [] => ParseOut.err MetaError.indexError
  | s :: _ => ParseOut.ok s

/-- Splitting a character list on `/`, the model of
`avg_frame_rate.split("/")` (source line 194). -/
def splitSlash : List Char → List Char → List (List Char)
  | [], acc => [acc.reverse]
  | c :: rest, acc =>
      if c = '/' then acc.reverse :: splitSlash rest []
      else splitSlash rest (c :: acc)

/-- Digit-string accumulator for the model of python `int(...)`. -/
def parseNatAux : List Char → ℕ → Option ℕ
  | [], acc => some acc
  | c :: rest, acc =>
      if c.isDigit then parseNatAux rest (acc * 10 + (c.toNat - 48))
      else none

/-- Model of python `int(s)`: an optional sign followed by a nonempty digit
string (whitespace/underscore tolerance of python is irrelevant to the probed
inputs considered here); `none` models a `ValueError`. -/
def parseInt : List Char → Option ℤ
  | [] => none
  | '-' :: rest =>
      if rest = [] then none else (parseNatAux rest 0).map (fun n => -(n : ℤ))
  | '+' :: rest =>
      if rest = [] then none else (parseNatAux rest 0).map (fun n => (n : ℤ))
  | cs => (parseNatAux cs 0).map (fun n => (n : ℤ))

/-- Source lines 194-195:
`fr1, fr2 = avg_frame_rate.split("/"); frame_rate = int(fr1) / int(fr2)`.
Unpacking anything but exactly two parts raises `ValueError`, as does a
non-integer part; a zero denominator raises `ZeroDivisionError`.  The value of
the division is the exact rational `n / d`, written `Rat.divInt n d`
(`Rat.divInt_eq_div` states that this is the rational division `(n:ℚ)/(d:ℚ)`;
see `parseFrameRate_ok_div` below). -/
def parseFrameRate (s : String) : ParseOut ℚ :=
  match splitSlash s.data [] with
  | [a, b] =>
      match parseInt a, parseInt b with
      | some n, some d =>
          if d = 0 then ParseOut.err MetaError.zeroDivisionError
          else ParseOut.ok (Rat.divInt n d)
      | _, _ => ParseOut.err MetaError.valueError
  | _ => ParseOut.err MetaError.valueError

/-- The gate `prompt(question, default)` (source lines 100-108), returning its
boolean decision together with the number of interactive lines consumed.
In yes-mode it returns the default and reads nothing; otherwise it reads one
line, lowercases it, returns the default on an empty response, and otherwise
answers yes exactly for the (lowercased) response `y`. -/
def prompt (yes : Bool) (dflt : Bool) (line : List Char) : Bool × ℕ :=
  if yes then (dflt, 0)
  else
    let response := line.map Char.toLower
    (if response = [] then dflt else response == ['y'], 1)

/-- The decision that the `k`-th gate invocation of a run yields, when the
gate's default is `dflt` and the pending interactive lines are `stdin`. -/
def promptAnswer (cfg : Cfg) (stdin : ℕ → List Char) (k : ℕ) (dflt : Bool) : Bool :=
  (prompt cfg.yes dflt (stdin k)).1

/-- Number of interactive lines one gate invocation consumes. -/
def lineCost (cfg : Cfg) : ℕ := if cfg.yes then 0 else 1

/-- Observable events of one `process_one` run, in execution order.  Prompt
events record the decision obtained. -/
inductive Ev
  | overwritePrompt (ans : Bool)
  | probe
  | scalePrompt (ans : Bool)
  | nearestPrompt (ans : Bool)
  | fpsPrompt (ans : Bool)
  | speedPrompt (ans : Bool)
  | pngExtract
  | encodeAttempt (i : ℕ)
deriving DecidableEq

/-- ffmpeg filters appended to `input_video` by the planning code.
`Step.scale w h b`: the `scale` filter with target `w`×`h` (−1 meaning
"auto, preserving the aspect ratio") and `b` the nearest-neighbor flag;
`Step.fps n`: the `fps` filter (with `round="down"`);
`Step.setpts q`: the `setpts` filter with expression `q*PTS`. -/
inductive Step
  | scale (width height : ℤ) (nearest : Bool)
  | fps (cap : ℕ)
  | setpts (speed : ℚ)
deriving DecidableEq

/-- Terminal states of one `process_one` run.  `skipped`: overwrite declined
(line 185); `abortedScale`/`abortedFps`/`abortedSpeed`: a planning gate
declined (early `return`); `metaErr`: an unguarded python exception from the
metadata handling; `success`: the "Transform Done" path; `sizeBudgetExceeded`:
both encode attempts exceeded 256 KiB (lines 271-276). -/
inductive Outcome
  | skipped
  | abortedScale
  | abortedFps
  | abortedSpeed
  | metaErr (e : MetaError)
  | success
  | sizeBudgetExceeded
deriving DecidableEq

/-- One iteration of the encode loop (lines 248-259): its index, the extra
quality parameters of `out_kwargs` it passed, and the size of the file it
produced. -/
structure EncodeAttempt where
  idx : ℕ
  crf : Option ℕ
  bitrate : Option String
  resultSize : ℕ
deriving DecidableEq

/-- The per-job environment: whether the output path already exists, the
validated probe result, and the size of the file each encode attempt would
produce. -/
structure Env where
  outputExists : Bool
  info : FFProbeInfo
  size : ℕ → ℕ

/-- Result of a planning section: filter steps appended, next interactive-line
index, events, and whether the section's gate aborted the job. -/
structure SectOut where
  steps : List Step
  k : ℕ
  events : List Ev
  aborted : Bool

/-- The scale section (source lines 199-222): if the frame is not 512×512 ask
the scale gate (reject aborts the job); on accept the nearest-neighbor choice
is the explicitly set `--nearest` flag if any, otherwise a gate with default yes;
the target is (512, auto) when width > height and (auto, 512) otherwise. -/
def scaleSection (cfg : Cfg) (stdin : ℕ → List Char) (k : ℕ)
    (st : FFProbeInfoStream) : SectOut :=
  if st.width ≠ 512 ∨ st.height ≠ 512 then
    let ans := promptAnswer cfg stdin k true
    let k1 := k + lineCost cfg
    if ans then
      match cfg.nearest with
      | some b =>
          { steps := [Step.scale (if st.width > st.height then 512 else -1)
                        (if st.width > st.height then -1 else 512) b],
            k := k1, events := [Ev.scalePrompt ans], aborted := false }
      | none =>
          let nAns := promptAnswer cfg stdin k1 true
          { steps := [Step.scale (if st.width > st.height then 512 else -1)
                        (if st.width > st.height then -1 else 512) nAns],
            k := k1 + lineCost cfg,
            events := [Ev.scalePrompt ans, Ev.nearestPrompt nAns],
            aborted := false }
    else
      { steps := [], k := k1, events := [Ev.scalePrompt ans], aborted := true }
  else
    { steps := [], k := k, events := [], aborted := false }

/-- The frame-rate section (source lines 224-230): if the parsed rate exceeds
30 ask the gate (reject aborts); on accept append the `fps` filter and set the
working frame rate to exactly 30; otherwise the rate is unchanged.  Returns
the section outcome and the resulting working frame rate. -/
def fpsSection (cfg : Cfg) (stdin : ℕ → List Char) (k : ℕ) (fr : ℚ) :
    SectOut × ℚ :=
  if fr > 30 then
    let ans := promptAnswer cfg stdin k true
    if ans then
      ({ steps := [Step.fps 30], k := k + lineCost cfg,
         events := [Ev.fpsPrompt ans], aborted := false }, 30)
    else
      ({ steps := [], k := k + lineCost cfg,
         events := [Ev.fpsPrompt ans], aborted := true }, fr)
  else
    ({ steps := [], k := k, events := [], aborted := false }, fr)

/-- The speed section (source lines 232-238): if the duration exceeds 3
seconds ask the gate (reject aborts); on accept append
`setpts (3/duration)*PTS`.  The working frame rate is not touched. -/
def speedSection (cfg : Cfg) (stdin : ℕ → List Char) (k : ℕ) (dur : ℚ) :
    SectOut :=
  if dur > 3 then
    let ans := promptAnswer cfg stdin k true
    if ans then
      { steps := [Step.setpts (3 / dur)], k := k + lineCost cfg,
        events := [Ev.speedPrompt ans], aborted := false }
    else
      { steps := [], k := k + lineCost cfg,
        events := [Ev.speedPrompt ans], aborted := true }
  else
    { steps := [], k := k, events := [], aborted := false }

/-- Result of the planning stage: steps, working frame rate for the
png-sequence reassembly, the abort outcome if a gate declined, events. -/
structure PlanOut where
  steps : List Step
  workingRate : ℚ
  aborted : Option Outcome
  events : List Ev

/-- The three planning sections in the fixed order of `process_one`:
scale, then frame-rate cap, then speed-up; the first declined gate ends the
job (early `return`). -/
def planStage (cfg : Cfg) (stdin : ℕ → List Char) (k : ℕ)
    (st : FFProbeInfoStream) (fr : ℚ) : PlanOut :=
  let sc := scaleSection cfg stdin k st
  if sc.aborted then
    { steps := sc.steps, workingRate := fr, aborted := some Outcome.abortedScale,
      events := sc.events }
  else
    let fp := fpsSection cfg stdin sc.k fr
    if (fp.1).aborted then
      { steps := sc.steps ++ (fp.1).steps, workingRate := fp.2,
        aborted := some Outcome.abortedFps, events := sc.events ++ (fp.1).events }
    else
      let sp := speedSection cfg stdin (fp.1).k st.duration
      if sp.aborted then
        { steps := sc.steps ++ (fp.1).steps ++ sp.steps, workingRate := fp.2,
          aborted := some Outcome.abortedSpeed,
          events := sc.events ++ (fp.1).events ++ sp.events }
      else
        { steps := sc.steps ++ (fp.1).steps ++ sp.steps, workingRate := fp.2,
          aborted := none, events := sc.events ++ (fp.1).events ++ sp.events }

/-- The 256 KiB output size budget (source line 260: `256 * 1024`). -/
def sizeBudget : ℕ := 256 * 1024

/-- Result of the encode stage. -/
structure EncodeOut where
  attempts : List EncodeAttempt
  outcome : Outcome
  existsAfter : Bool
  events : List Ev

/-- The encode stage (source lines 240-276): extract png frames, then
`for i in range(2)`: encode with the current `out_kwargs` (empty on attempt 0);
if the produced file is within the budget, succeed; after attempt 0, set
`crf = 20` and `b:v = "600k"` and retry; after attempt 1, delete the oversized
output and end with the failure message. -/
def encodeStage (size : ℕ → ℕ) : EncodeOut :=
  let s0 := size 0
  let a0 : EncodeAttempt := { idx := 0, crf := none, bitrate := none, resultSize := s0 }
  if s0 ≤ sizeBudget then
    { attempts := [a0], outcome := Outcome.success, existsAfter := true,
      events := [Ev.pngExtract, Ev.encodeAttempt 0] }
  else
    let s1 := size 1
    let a1 : EncodeAttempt := { idx := 1, crf := some 20, bitrate := some "600k", resultSize := s1 }
    if s1 ≤ sizeBudget then
      { attempts := [a0, a1], outcome := Outcome.success, existsAfter := true,
        events := [Ev.pngExtract, Ev.encodeAttempt 0, Ev.encodeAttempt 1] }
    else
      { attempts := [a0, a1], outcome := Outcome.sizeBudgetExceeded,
        existsAfter := false,
        events := [Ev.pngExtract, Ev.encodeAttempt 0, Ev.encodeAttempt 1] }

/-- Full observable result of one `process_one` run. -/
structure RunResult where
  outcome : Outcome
  events : List Ev
  steps : List Step
  reassemblyRate : Option ℚ
  attempts : List EncodeAttempt
  outputExistsAfter : Bool

/-- The pipeline from the probe call on (source lines 188-276): probe, index
the first stream, parse the frame rate, plan, encode.  `k` is the index of the
next interactive line (0 or 1 depending on whether the overwrite gate read
one). -/
def probeOnward (cfg : Cfg) (env : Env) (stdin : ℕ → List Char) (k : ℕ) :
    RunResult :=
  match firstStream env.info with
  | ParseOut.err e =>
      { outcome := Outcome.metaErr e, events := [Ev.probe], steps := [],
        reassemblyRate := none, attempts := [],
        outputExistsAfter := env.outputExists }
  | ParseOut.ok st =>
      match parseFrameRate st.avg_frame_rate with
      | ParseOut.err e =>
          { outcome := Outcome.metaErr e, events := [Ev.probe], steps := [],
            reassemblyRate := none, attempts := [],
            outputExistsAfter := env.outputExists }
      | ParseOut.ok fr =>
          let p := planStage cfg stdin k st fr
          match p.aborted with
          | some o =>
              { outcome := o, events := Ev.probe :: p.events, steps := p.steps,
                reassemblyRate := none, attempts := [],
                outputExistsAfter := env.outputExists }
          | none =>
              let enc := encodeStage env.size
              { outcome := enc.outcome,
                events := Ev.probe :: (p.events ++ enc.events),
                steps := p.steps, reassemblyRate := some p.workingRate,
                attempts := enc.attempts,
                outputExistsAfter := enc.existsAfter }

/-- One whole job, `process_one` (source lines 177-276).  The overwrite gate
(lines 180-186) runs first, and only when the output file already exists;
declining it skips the job before the probe is ever called. -/
def process_one (cfg : Cfg) (env : Env) (stdin : ℕ → List Char) : RunResult :=
  if env.outputExists then
    let ans := promptAnswer cfg stdin 0 true
    if ans then
      let r := probeOnward cfg env stdin (lineCost cfg)
      { r with events := Ev.overwritePrompt ans :: r.events }
    else
      { outcome := Outcome.skipped, events := [Ev.overwritePrompt ans],
        steps := [], reassemblyRate := none, attempts := [],
        outputExistsAfter := env.outputExists }
  else
    probeOnward cfg env stdin 0

/-- How one job behaves when dispatched: it either returns normally or raises
a python exception with the given message. -/
inductive JobExec
  | ok
  | raised (msg : String)
deriving DecidableEq

/-- The guarded per-job wrapper `_proc_one` (source lines 304-311): any
`Exception` from `process_one` is caught and logged together with the job's
filename; nothing propagates.  `some (name, msg)` is the logged error line. -/
def procOneCaught (name : String) (e : JobExec) : Option (String × String) :=
  match e with
  | JobExec.ok => none
  | JobExec.raised m => some (name, m)

/-- Terminal result of the batch flow of `main`. -/
inductive BatchResult
  | abortedInputMissing
  | abortedDirDeclined
  | completed (logs : List (Option (String × String)))
deriving DecidableEq

/-- The process exit code `main` returns for each batch result
(source lines 284, 301, 321). -/
def exitCode : BatchResult → ℕ
  | BatchResult.completed _ => 0
  | _ => 1

/-- The batch flow of `main` (source lines 279-321): abort with exit code 1
when an input path does not exist, or when the output directory is missing
and its creation gate declines; otherwise dispatch every discovered job
through the guarded wrapper, gather them all, print the completion notice and
return 0. -/
def mainRun (yes : Bool) (inputsExist : Bool) (dirExists : Bool)
    (createLine : List Char) (jobs : List (String × JobExec)) : BatchResult :=
  if ¬ inputsExist then BatchResult.abortedInputMissing
  else if ¬ dirExists ∧ (prompt yes true createLine).1 = false then
    BatchResult.abortedDirDeclined
  else
    BatchResult.completed (jobs.map fun j => procOneCaught j.1 j.2)

/-- Pipeline stage of an event: 0 = overwrite gate, 1 = probe, 2 = planning,
3 = encode. -/
def stageOf : Ev → ℕ
  | Ev.overwritePrompt _ => 0
  | Ev.probe => 1
  | Ev.scalePrompt _ => 2
  | Ev.nearestPrompt _ => 2
  | Ev.fpsPrompt _ => 2
  | Ev.speedPrompt _ => 2
  | Ev.pngExtract => 3
  | Ev.encodeAttempt _ => 3

/-- Whether an event is the media probe. -/
def isProbeEv : Ev → Bool
  | Ev.probe => true
  | _ => false

/-- Whether an event is the overwrite-confirmation gate. -/
def isOverwriteEv : Ev → Bool
  | Ev.overwritePrompt _ => true
  | _ => false

/-- All gates of a run decide yes (their default): true in yes-mode, and true
whenever every pending interactive line answers yes. -/
def approvesAll (cfg : Cfg) (stdin : ℕ → List Char) : Prop :=
  ∀ k, promptAnswer cfg stdin k true = true

end VideoToWebm

namespace VideoToWebm

/-! ### Helper lemmas about the planning sections -/

/-- Every event of the scale section belongs to the planning stage. -/
theorem scaleSection_stage2 (cfg : Cfg) (stdin : ℕ → List Char) (k : ℕ)
    (st : FFProbeInfoStream) :
    ∀ e ∈ (scaleSection cfg stdin k st).events, stageOf e = 2 := by
  intro e he
  simp only [scaleSection] at he
  split at he
  · split at he
    · split at he
      · simp only [List.mem_singleton] at he
        subst he; rfl
      · simp only [List.mem_cons, List.mem_singleton] at he
        rcases he with rfl | rfl | h
        · rfl
        · rfl
        · simp at h
    · simp only [List.mem_singleton] at he
      subst he; rfl
  · simp at he

/-- Every event of the frame-rate section belongs to the planning stage. -/
theorem fpsSection_stage2 (cfg : Cfg) (stdin : ℕ → List Char) (k : ℕ) (fr : ℚ) :
    ∀ e ∈ (fpsSection cfg stdin k fr).1.events, stageOf e = 2 := by
  intro e he
  simp only [fpsSection] at he
  split at he
  · split at he <;>
      · simp only [List.mem_singleton] at he
        subst he; rfl
  · simp at he

/-- Every event of the speed section belongs to the planning stage. -/
theorem speedSection_stage2 (cfg : Cfg) (stdin : ℕ → List Char) (k : ℕ) (dur : ℚ) :
    ∀ e ∈ (speedSection cfg stdin k dur).events, stageOf e = 2 := by
  intro e he
  simp only [speedSection] at he
  split at he
  · split at he <;>
      · simp only [List.mem_singleton] at he
        subst he; rfl
  · simp at he

/-- Every event of the planning stage belongs to the planning stage. -/
theorem planStage_stage2 (cfg : Cfg) (stdin : ℕ → List Char) (k : ℕ)
    (st : FFProbeInfoStream) (fr : ℚ) :
    ∀ e ∈ (planStage cfg stdin k st fr).events, stageOf e = 2 := by
  intro e he
  simp only [planStage] at he
  split at he
  · exact scaleSection_stage2 _ _ _ _ e he
  · split at he
    · rcases List.mem_append.mp he with h | h
      · exact scaleSection_stage2 _ _ _ _ e h
      · exact fpsSection_stage2 _ _ _ _ e h
    · split at he <;>
      · rcases List.mem_append.mp he with h | h
        · rcases List.mem_append.mp h with h2 | h2
          · exact scaleSection_stage2 _ _ _ _ e h2
          · exact fpsSection_stage2 _ _ _ _ e h2
        · exact speedSection_stage2 _ _ _ _ e h

/-- Every event of the encode stage belongs to the encode stage. -/
theorem encodeStage_stage3 (size : ℕ → ℕ) :
    ∀ e ∈ (encodeStage size).events, stageOf e = 3 := by
  intro e he
  simp only [encodeStage] at he
  split at he
  · simp only [List.mem_cons, List.mem_singleton] at he
    rcases he with rfl | rfl | h
    · rfl
    · rfl
    · simp at h
  · split at he <;>
    · simp only [List.mem_cons, List.mem_singleton] at he
      rcases he with rfl | rfl | rfl | h
      · rfl
      · rfl
      · rfl
      · simp at h

/-- A plan abort is one of the three planning aborts, never the skip. -/
theorem planStage_aborted_ne_skipped (cfg : Cfg) (stdin : ℕ → List Char) (k : ℕ)
    (st : FFProbeInfoStream) (fr : ℚ) (o : Outcome)
    (h : (planStage cfg stdin k st fr).aborted = some o) : o ≠ Outcome.skipped := by
  simp only [planStage] at h
  split at h
  · simp only [Option.some.injEq] at h
    subst h; simp
  · split at h
    · simp only [Option.some.injEq] at h
      subst h; simp
    · split at h
      · simp only [Option.some.injEq] at h
        subst h; simp
      · simp at h

/-- The encode stage ends in success or in the exceeded-size failure. -/
theorem encodeStage_outcome_cases (size : ℕ → ℕ) :
    (encodeStage size).outcome = Outcome.success ∨
    (encodeStage size).outcome = Outcome.sizeBudgetExceeded := by
  simp only [encodeStage]
  split
  · exact Or.inl rfl
  · split
    · exact Or.inl rfl
    · exact Or.inr rfl

/-- The events of the pipeline past the overwrite gate: the probe event first,
then planning events, then encode events. -/
theorem probeOnward_events (cfg : Cfg) (env : Env) (stdin : ℕ → List Char) (k : ℕ) :
    ∃ pe ee, (probeOnward cfg env stdin k).events = Ev.probe :: (pe ++ ee) ∧
      (∀ e ∈ pe, stageOf e = 2) ∧ (∀ e ∈ ee, stageOf e = 3) := by
  simp only [probeOnward]
  cases hfs : firstStream env.info with
  | err e => exact ⟨[], [], rfl, by simp, by simp⟩
  | ok st =>
    dsimp only
    cases hpf : parseFrameRate st.avg_frame_rate with
    | err e => exact ⟨[], [], rfl, by simp, by simp⟩
    | ok fr =>
      dsimp only
      cases hab : (planStage cfg stdin k st fr).aborted with
      | some o =>
          refine ⟨(planStage cfg stdin k st fr).events, [], ?_,
            planStage_stage2 _ _ _ _ _, by simp⟩
          simp
      | none =>
          exact ⟨(planStage cfg stdin k st fr).events, (encodeStage env.size).events,
            rfl, planStage_stage2 _ _ _ _ _, encodeStage_stage3 _⟩

/-- The pipeline past the overwrite gate never reports the skip outcome. -/
theorem probeOnward_outcome_ne_skipped (cfg : Cfg) (env : Env)
    (stdin : ℕ → List Char) (k : ℕ) :
    (probeOnward cfg env stdin k).outcome ≠ Outcome.skipped := by
  simp only [probeOnward]
  cases hfs : firstStream env.info with
  | err e => simp
  | ok st =>
    dsimp only
    cases hpf : parseFrameRate st.avg_frame_rate with
    | err e => simp
    | ok fr =>
      dsimp only
      cases hab : (planStage cfg stdin k st fr).aborted with
      | some o => exact planStage_aborted_ne_skipped _ _ _ _ _ _ hab
      | none => rcases encodeStage_outcome_cases env.size with h | h <;> simp [h]

/-- A list of events all in one stage is sorted by stage. -/
theorem pairwise_stage_const (c : ℕ) (l : List Ev) (h : ∀ e ∈ l, stageOf e = c) :
    l.Pairwise (fun a b => stageOf a ≤ stageOf b) := by
  induction l with
  | nil => exact List.Pairwise.nil
  | cons x xs ih =>
      refine List.Pairwise.cons ?_ (ih fun e he => h e (List.mem_cons_of_mem _ he))
      intro y hy
      rw [h x (List.mem_cons_self x xs), h y (List.mem_cons_of_mem _ hy)]

/-- Planning events followed by encode events are sorted by stage. -/
theorem pairwise_plan_encode (pe ee : List Ev)
    (h2 : ∀ e ∈ pe, stageOf e = 2) (h3 : ∀ e ∈ ee, stageOf e = 3) :
    (pe ++ ee).Pairwise (fun a b => stageOf a ≤ stageOf b) := by
  refine List.pairwise_append.mpr ⟨pairwise_stage_const 2 pe h2, pairwise_stage_const 3 ee h3, ?_⟩
  intro a ha b hb
  rw [h2 a ha, h3 b hb]
  exact Nat.le_succ 2

end VideoToWebm

namespace VideoToWebm

/-! ### Behaviour when every gate decides yes -/

/-- Under all-approving gates the scale section never aborts, and appends the
scale step exactly when the frame is not 512×512, targeting the longer
dimension, with the nearest-neighbor choice given by the flag (default yes). -/
theorem scaleSection_approved {cfg : Cfg} {stdin : ℕ → List Char}
    (ha : approvesAll cfg stdin) (k : ℕ) (st : FFProbeInfoStream) :
    (scaleSection cfg stdin k st).aborted = false ∧
    (scaleSection cfg stdin k st).steps =
      (if st.width ≠ 512 ∨ st.height ≠ 512 then
        [Step.scale (if st.width > st.height then 512 else -1)
          (if st.width > st.height then -1 else 512) (cfg.nearest.getD true)]
      else []) := by
  simp only [scaleSection, ha k]
  by_cases h : st.width ≠ 512 ∨ st.height ≠ 512
  · simp only [if_pos h, if_true]
    cases hn : cfg.nearest with
    | some b => simp
    | none => simp [ha (k + lineCost cfg)]
  · simp [h]

/-- Under all-approving gates the frame-rate section never aborts, caps the
rate at 30 exactly when it exceeds 30, and otherwise leaves it unchanged. -/
theorem fpsSection_approved {cfg : Cfg} {stdin : ℕ → List Char}
    (ha : approvesAll cfg stdin) (k : ℕ) (fr : ℚ) :
    (fpsSection cfg stdin k fr).1.aborted = false ∧
    (fpsSection cfg stdin k fr).1.steps = (if fr > 30 then [Step.fps 30] else []) ∧
    (fpsSection cfg stdin k fr).2 = (if fr > 30 then (30 : ℚ) else fr) := by
  simp only [fpsSection, ha k]
  by_cases h : fr > 30 <;> simp [h]

/-- Under all-approving gates the speed section never aborts and appends the
speed-up step exactly when the duration exceeds 3 seconds. -/
theorem speedSection_approved {cfg : Cfg} {stdin : ℕ → List Char}
    (ha : approvesAll cfg stdin) (k : ℕ) (dur : ℚ) :
    (speedSection cfg stdin k dur).aborted = false ∧
    (speedSection cfg stdin k dur).steps =
      (if dur > 3 then [Step.setpts (3 / dur)] else []) := by
  simp only [speedSection, ha k]
  by_cases h : dur > 3 <;> simp [h]

/-- Under all-approving gates the whole planning stage never aborts; its steps
are the scale, cap and speed-up steps of the three threshold tests in order,
and its working frame rate is 30 when the parsed rate exceeded 30 and the
parsed rate itself otherwise. -/
theorem planStage_approved {cfg : Cfg} {stdin : ℕ → List Char}
    (ha : approvesAll cfg stdin) (k : ℕ) (st : FFProbeInfoStream) (fr : ℚ) :
    (planStage cfg stdin k st fr).aborted = none ∧
    (planStage cfg stdin k st fr).steps =
      (if st.width ≠ 512 ∨ st.height ≠ 512 then
        [Step.scale (if st.width > st.height then 512 else -1)
          (if st.width > st.height then -1 else 512) (cfg.nearest.getD true)]
      else [])
      ++ (if fr > 30 then [Step.fps 30] else [])
      ++ (if st.duration > 3 then [Step.setpts (3 / st.duration)] else []) ∧
    (planStage cfg stdin k st fr).workingRate = (if fr > 30 then (30 : ℚ) else fr) := by
  obtain ⟨ha1, hs1⟩ := scaleSection_approved ha k st
  obtain ⟨ha2, hs2, hr2⟩ := fpsSection_approved ha (scaleSection cfg stdin k st).k fr
  obtain ⟨ha3, hs3⟩ := speedSection_approved ha
    (fpsSection cfg stdin (scaleSection cfg stdin k st).k fr).1.k st.duration
  simp [planStage, ha1, ha2, ha3, hs1, hs2, hs3, hr2]

/-- Master lemma: under all-approving gates and well-formed metadata, a job
reaches the encode stage; its steps, reassembly rate, attempts, outcome and
final file existence are as computed by the planning and encode stages. -/
theorem process_one_approved {cfg : Cfg} {env : Env} {stdin : ℕ → List Char}
    {st : FFProbeInfoStream} {fr : ℚ}
    (ha : approvesAll cfg stdin)
    (hs : firstStream env.info = ParseOut.ok st)
    (hf : parseFrameRate st.avg_frame_rate = ParseOut.ok fr) :
    (process_one cfg env stdin).steps =
      (if st.width ≠ 512 ∨ st.height ≠ 512 then
        [Step.scale (if st.width > st.height then 512 else -1)
          (if st.width > st.height then -1 else 512) (cfg.nearest.getD true)]
      else [])
      ++ (if fr > 30 then [Step.fps 30] else [])
      ++ (if st.duration > 3 then [Step.setpts (3 / st.duration)] else []) ∧
    (process_one cfg env stdin).reassemblyRate = some (if fr > 30 then (30 : ℚ) else fr) ∧
    (process_one cfg env stdin).attempts = (encodeStage env.size).attempts ∧
    (process_one cfg env stdin).outcome = (encodeStage env.size).outcome ∧
    (process_one cfg env stdin).outputExistsAfter = (encodeStage env.size).existsAfter := by
  have hbody : ∀ k, (probeOnward cfg env stdin k).steps =
      (if st.width ≠ 512 ∨ st.height ≠ 512 then
        [Step.scale (if st.width > st.height then 512 else -1)
          (if st.width > st.height then -1 else 512) (cfg.nearest.getD true)]
      else [])
      ++ (if fr > 30 then [Step.fps 30] else [])
      ++ (if st.duration > 3 then [Step.setpts (3 / st.duration)] else []) ∧
      (probeOnward cfg env stdin k).reassemblyRate = some (if fr > 30 then (30 : ℚ) else fr) ∧
      (probeOnward cfg env stdin k).attempts = (encodeStage env.size).attempts ∧
      (probeOnward cfg env stdin k).outcome = (encodeStage env.size).outcome ∧
      (probeOnward cfg env stdin k).outputExistsAfter = (encodeStage env.size).existsAfter := by
    intro k
    obtain ⟨hp1, hp2, hp3⟩ := planStage_approved ha k st fr
    simp [probeOnward, hs, hf, hp1, hp2, hp3]
  simp only [process_one]
  by_cases hx : env.outputExists = true
  · simp only [hx, if_true, ha 0, if_true]
    exact hbody (lineCost cfg)
  · simp only [hx, if_false]
    exact hbody 0

end VideoToWebm

namespace VideoToWebm

/-! ### Claim theorems -/

/-- C9 (confirmed): for every gate invocation, auto-yes mode returns the
default and reads no input; otherwise exactly one line is read, an empty
response returns the default, and a non-empty response answers yes if and only
if it case-insensitively equals "y" (its lowercasing is the single letter y). -/
theorem confirm_semantics (yes dflt : Bool) (line : List Char) :
    (yes = true → prompt yes dflt line = (dflt, 0)) ∧
    (yes = false →
      (prompt yes dflt line).2 = 1 ∧
      (line = [] → (prompt yes dflt line).1 = dflt) ∧
      (line ≠ [] →
        ((prompt yes dflt line).1 = true ↔ line.map Char.toLower = ['y']))) := by
  refine ⟨fun h => by subst h; rfl, fun h => ?_⟩
  subst h
  refine ⟨rfl, fun h => by subst h; rfl, fun hne => ?_⟩
  have hm : line.map Char.toLower ≠ [] := by simpa using hne
  simp [prompt, hm]

/-- Witness for C9 at concrete inputs: in yes-mode the default comes back with
no line consumed, and the answer "Y" is accepted case-insensitively. -/
theorem confirm_semantics_witness :
    prompt true false ['Y'] = (false, 0) ∧ (prompt false true ['Y']).1 = true := by
  refine ⟨(confirm_semantics true false ['Y']).1 rfl, ?_⟩
  exact (((confirm_semantics false true ['Y']).2 rfl).2.2 (by decide)).mpr (by decide)

/-- C10 (confirmed): the metadata handling is not total.  A probe result with
an empty stream list is schema-valid but makes the job fail with the python
`IndexError` from `streams[0]`, and a stream whose `avg_frame_rate` is "0/0"
is schema-valid but makes it fail with the `ZeroDivisionError` from
`int(fr1)/int(fr2)`; neither is a classified probe error of the script. -/
theorem metadata_not_total :
    (process_one ⟨true, none⟩ ⟨false, ⟨[]⟩, fun _ => 0⟩ fun _ => []).outcome
        = Outcome.metaErr MetaError.indexError ∧
    (process_one ⟨true, none⟩ ⟨false, ⟨[⟨512, 512, 2, "0/0"⟩]⟩, fun _ => 0⟩ fun _ => []).outcome
        = Outcome.metaErr MetaError.zeroDivisionError :=
  ⟨by decide, by decide⟩

/-- C4 (confirmed): once discovery and output-directory setup complete, the
batch exit code is 0 no matter how many jobs fail; each job's exception is
caught at the job boundary, logged with the job's name, and every job is
dispatched and reaches a terminal log entry regardless of its siblings. -/
theorem batch_exit_zero (yes inputsExist dirExists : Bool) (createLine : List Char)
    (jobs : List (String × JobExec))
    (hIn : inputsExist = true)
    (hDir : dirExists = true ∨ (prompt yes true createLine).1 = true) :
    exitCode (mainRun yes inputsExist dirExists createLine jobs) = 0 ∧
    mainRun yes inputsExist dirExists createLine jobs
        = BatchResult.completed (jobs.map fun j => procOneCaught j.1 j.2) ∧
    ∀ name msg, (name, JobExec.raised msg) ∈ jobs →
      some (name, msg) ∈ jobs.map fun j => procOneCaught j.1 j.2 := by
  subst hIn
  have hmain : mainRun yes true dirExists createLine jobs
      = BatchResult.completed (jobs.map fun j => procOneCaught j.1 j.2) := by
    rcases hDir with h | h
    · simp [mainRun, h]
    · simp [mainRun, h]
  refine ⟨by rw [hmain]; rfl, hmain, ?_⟩
  intro name msg hmem
  exact List.mem_map.mpr ⟨(name, JobExec.raised msg), hmem, rfl⟩

/-- Witness for C4: a batch with one raising job and one good job still exits
with code 0. -/
theorem batch_exit_zero_witness :
    exitCode (mainRun true true true []
      [( "a.mp4", JobExec.raised ("boom")), ( "b.mp4", JobExec.ok)]) = 0 :=
  (batch_exit_zero true true true []
    [( "a.mp4", JobExec.raised ("boom")), ( "b.mp4", JobExec.ok)] rfl (Or.inl rfl)).1

/-- C2 (confirmed): when both encode attempts produce a file above the 256 KiB
budget, the job ends in the size-budget failure (not success) and the
oversized output file is deleted, so it does not exist after the job. -/
theorem oversized_deleted_and_failed {cfg : Cfg} {env : Env} {stdin : ℕ → List Char}
    {st : FFProbeInfoStream} {fr : ℚ}
    (ha : approvesAll cfg stdin)
    (hs : firstStream env.info = ParseOut.ok st)
    (hf : parseFrameRate st.avg_frame_rate = ParseOut.ok fr)
    (h0 : sizeBudget < env.size 0) (h1 : sizeBudget < env.size 1) :
    (process_one cfg env stdin).outcome = Outcome.sizeBudgetExceeded ∧
    (process_one cfg env stdin).outputExistsAfter = false ∧
    (process_one cfg env stdin).outcome ≠ Outcome.success := by
  obtain ⟨-, -, -, ho, he⟩ := process_one_approved ha hs hf
  have henc : (encodeStage env.size).outcome = Outcome.sizeBudgetExceeded ∧
      (encodeStage env.size).existsAfter = false := by
    constructor <;> simp [encodeStage, Nat.not_le.mpr h0, Nat.not_le.mpr h1]
  rw [ho, he, henc.1, henc.2]
  exact ⟨rfl, rfl, by simp⟩

/-- Witness for C2: both attempts produce 300000 bytes (above 262144); the
outcome is the size-budget failure and the output file is gone. -/
theorem oversized_deleted_and_failed_witness :
    (process_one ⟨true, none⟩ ⟨false, ⟨[⟨512, 512, 2, "30/1"⟩]⟩, fun _ => 300000⟩
        fun _ => []).outcome = Outcome.sizeBudgetExceeded ∧
    (process_one ⟨true, none⟩ ⟨false, ⟨[⟨512, 512, 2, "30/1"⟩]⟩, fun _ => 300000⟩
        fun _ => []).outputExistsAfter = false := by
  have h := @oversized_deleted_and_failed ⟨true, none⟩
    ⟨false, ⟨[⟨512, 512, 2, "30/1"⟩]⟩, fun _ => 300000⟩ (fun _ => [])
    ⟨512, 512, 2, "30/1"⟩ (Rat.divInt 30 1)
    (fun _ => rfl) rfl rfl (by decide) (by decide)
  exact ⟨h.1, h.2.1⟩

/-- C5 (confirmed): a job performs at most two encode attempts; attempt 1 runs
exactly when attempt 0's output exceeds 256 KiB, carries constant-rate-factor
20 and target bitrate 600k, while attempt 0 carries no quality parameters. -/
theorem encode_attempt_policy {cfg : Cfg} {env : Env} {stdin : ℕ → List Char}
    {st : FFProbeInfoStream} {fr : ℚ}
    (ha : approvesAll cfg stdin)
    (hs : firstStream env.info = ParseOut.ok st)
    (hf : parseFrameRate st.avg_frame_rate = ParseOut.ok fr) :
    (process_one cfg env stdin).attempts =
      (if env.size 0 ≤ sizeBudget then
        [{ idx := 0, crf := none, bitrate := none, resultSize := env.size 0 }]
      else
        [{ idx := 0, crf := none, bitrate := none, resultSize := env.size 0 },
         { idx := 1, crf := some 20, bitrate := some ("600k"), resultSize := env.size 1 }]) ∧
    (process_one cfg env stdin).attempts.length ≤ 2 := by
  obtain ⟨-, -, hat, -, -⟩ := process_one_approved ha hs hf
  have henc : (encodeStage env.size).attempts =
      (if env.size 0 ≤ sizeBudget then
        [{ idx := 0, crf := none, bitrate := none, resultSize := env.size 0 }]
      else
        [{ idx := 0, crf := none, bitrate := none, resultSize := env.size 0 },
         { idx := 1, crf := some 20, bitrate := some ("600k"), resultSize := env.size 1 }]) := by
    by_cases h0 : env.size 0 ≤ sizeBudget
    · simp [encodeStage, h0]
    · by_cases h1 : env.size 1 ≤ sizeBudget <;> simp [encodeStage, h0, h1]
  rw [hat, henc]
  refine ⟨rfl, ?_⟩
  split <;> simp

/-- Witness for C5: with attempt sizes 300000 then 1000, exactly two attempts
happen; the second carries crf 20 and bitrate 600k. -/
theorem encode_attempt_policy_witness :
    (process_one ⟨true, none⟩
        ⟨false, ⟨[⟨512, 512, 2, "30/1"⟩]⟩, fun i => if i = 0 then 300000 else 1000⟩
        fun _ => []).attempts =
      [{ idx := 0, crf := none, bitrate := none, resultSize := 300000 },
       { idx := 1, crf := some 20, bitrate := some ("600k"), resultSize := 1000 }] := by
  have h := @encode_attempt_policy ⟨true, none⟩
    ⟨false, ⟨[⟨512, 512, 2, "30/1"⟩]⟩, fun i => if i = 0 then 300000 else 1000⟩
    (fun _ => []) ⟨512, 512, 2, "30/1"⟩ (Rat.divInt 30 1) (fun _ => rfl) rfl rfl
  rw [h.1]
  norm_num [sizeBudget]

end VideoToWebm

namespace VideoToWebm

/-- C6 (confirmed): under approving gates, the frame-rate cap step is in the
plan exactly when the parsed rate exceeds 30; when it is, the working rate —
used as the reassembly frame rate of the png-sequence encode — is exactly 30,
and otherwise it is the original parsed rate. -/
theorem cap_framerate_policy {cfg : Cfg} {env : Env} {stdin : ℕ → List Char}
    {st : FFProbeInfoStream} {fr : ℚ}
    (ha : approvesAll cfg stdin)
    (hs : firstStream env.info = ParseOut.ok st)
    (hf : parseFrameRate st.avg_frame_rate = ParseOut.ok fr) :
    ((Step.fps 30 ∈ (process_one cfg env stdin).steps) ↔ fr > 30) ∧
    (process_one cfg env stdin).reassemblyRate
        = some (if fr > 30 then (30 : ℚ) else fr) := by
  obtain ⟨hst, hrr, -, -, -⟩ := process_one_approved ha hs hf
  refine ⟨?_, hrr⟩
  rw [hst]
  by_cases h1 : fr > 30 <;>
    by_cases h2 : st.width ≠ 512 ∨ st.height ≠ 512 <;>
      by_cases h3 : st.duration > 3 <;>
        simp [h1, h2, h3]

/-- Witness for C6: a 60 fps input gets the cap step and is reassembled at
exactly 30 fps; the same-shaped 25 fps input keeps its parsed rate. -/
theorem cap_framerate_policy_witness :
    (Step.fps 30 ∈ (process_one ⟨true, none⟩
        ⟨false, ⟨[⟨512, 512, 2, "60/1"⟩]⟩, fun _ => 0⟩ fun _ => []).steps) ∧
    (process_one ⟨true, none⟩
        ⟨false, ⟨[⟨512, 512, 2, "60/1"⟩]⟩, fun _ => 0⟩ fun _ => []).reassemblyRate
      = some 30 ∧
    (process_one ⟨true, none⟩
        ⟨false, ⟨[⟨512, 512, 2, "25/1"⟩]⟩, fun _ => 0⟩ fun _ => []).reassemblyRate
      = some (Rat.divInt 25 1) := by
  have h6 := @cap_framerate_policy ⟨true, none⟩
    ⟨false, ⟨[⟨512, 512, 2, "60/1"⟩]⟩, fun _ => 0⟩ (fun _ => [])
    ⟨512, 512, 2, "60/1"⟩ (Rat.divInt 60 1) (fun _ => rfl) rfl rfl
  have h2 := @cap_framerate_policy ⟨true, none⟩
    ⟨false, ⟨[⟨512, 512, 2, "25/1"⟩]⟩, fun _ => 0⟩ (fun _ => [])
    ⟨512, 512, 2, "25/1"⟩ (Rat.divInt 25 1) (fun _ => rfl) rfl rfl
  refine ⟨h6.1.mpr (by decide), ?_, ?_⟩
  · rw [h6.2, if_pos (by decide : (Rat.divInt 60 1 : ℚ) > 30)]
  · rw [h2.2, if_neg (by decide : ¬ ((Rat.divInt 25 1 : ℚ) > 30))]

/-- C7 (confirmed): under approving gates, a scale step is in the plan exactly
when the frame is not 512×512; its target is width 512 with auto height (−1,
aspect-preserving) when width > height, and auto width with height 512 when
height ≥ width, with the nearest-neighbor flag as configured (default yes). -/
theorem scale_policy {cfg : Cfg} {env : Env} {stdin : ℕ → List Char}
    {st : FFProbeInfoStream} {fr : ℚ}
    (ha : approvesAll cfg stdin)
    (hs : firstStream env.info = ParseOut.ok st)
    (hf : parseFrameRate st.avg_frame_rate = ParseOut.ok fr) :
    ∀ w h b, Step.scale w h b ∈ (process_one cfg env stdin).steps ↔
      ((st.width ≠ 512 ∨ st.height ≠ 512) ∧
        w = (if st.width > st.height then 512 else -1) ∧
        h = (if st.width > st.height then -1 else 512) ∧
        b = cfg.nearest.getD true) := by
  obtain ⟨hst, -, -, -, -⟩ := process_one_approved ha hs hf
  intro w h b
  rw [hst]
  by_cases h2 : st.width ≠ 512 ∨ st.height ≠ 512 <;>
    by_cases h1 : fr > 30 <;>
      by_cases h3 : st.duration > 3 <;>
        · simp only [h1, h2, h3, if_true, if_false, List.mem_append]
          simp [and_assoc, eq_comm]

/-- Witness for C7: a landscape 1024×768 input is scaled to width 512 with
auto height; a portrait 300×500 input is scaled to height 512 with auto
width. -/
theorem scale_policy_witness :
    Step.scale 512 (-1) true ∈ (process_one ⟨true, none⟩
      ⟨false, ⟨[⟨1024, 768, 2, "30/1"⟩]⟩, fun _ => 0⟩ fun _ => []).steps ∧
    Step.scale (-1) 512 false ∈ (process_one ⟨true, some false⟩
      ⟨false, ⟨[⟨300, 500, 2, "30/1"⟩]⟩, fun _ => 0⟩ fun _ => []).steps := by
  constructor
  · exact (@scale_policy ⟨true, none⟩
      ⟨false, ⟨[⟨1024, 768, 2, "30/1"⟩]⟩, fun _ => 0⟩ (fun _ => [])
      ⟨1024, 768, 2, "30/1"⟩ (Rat.divInt 30 1) (fun _ => rfl) rfl rfl
      512 (-1) true).mpr (by decide)
  · exact (@scale_policy ⟨true, some false⟩
      ⟨false, ⟨[⟨300, 500, 2, "30/1"⟩]⟩, fun _ => 0⟩ (fun _ => [])
      ⟨300, 500, 2, "30/1"⟩ (Rat.divInt 30 1) (fun _ => rfl) rfl rfl
      (-1) 512 false).mpr (by decide)

/-- C8 (confirmed): under approving gates, a speed-up step is in the plan
exactly when the duration exceeds 3 seconds, and then its factor is exactly
3/duration; it is a `setpts` (presentation-timestamp) filter and the
reassembly frame rate is unaffected by it. -/
theorem speedup_policy {cfg : Cfg} {env : Env} {stdin : ℕ → List Char}
    {st : FFProbeInfoStream} {fr : ℚ}
    (ha : approvesAll cfg stdin)
    (hs : firstStream env.info = ParseOut.ok st)
    (hf : parseFrameRate st.avg_frame_rate = ParseOut.ok fr) :
    (∀ q, Step.setpts q ∈ (process_one cfg env stdin).steps ↔
        (st.duration > 3 ∧ q = 3 / st.duration)) ∧
    (process_one cfg env stdin).reassemblyRate
        = some (if fr > 30 then (30 : ℚ) else fr) := by
  obtain ⟨hst, hrr, -, -, -⟩ := process_one_approved ha hs hf
  refine ⟨?_, hrr⟩
  intro q
  rw [hst]
  by_cases h1 : fr > 30 <;>
    by_cases h2 : st.width ≠ 512 ∨ st.height ≠ 512 <;>
      by_cases h3 : st.duration > 3 <;>
        · simp only [h1, h2, h3, if_true, if_false, List.mem_append]
          simp [eq_comm]

/-- Witness for C8: a 6-second input gets the speed-up step with factor 3/6,
while its reassembly rate stays the parsed 30; a 2-second input gets no
speed-up step. -/
theorem speedup_policy_witness :
    Step.setpts (3 / (6 : ℚ)) ∈ (process_one ⟨true, none⟩
      ⟨false, ⟨[⟨512, 512, 6, "30/1"⟩]⟩, fun _ => 0⟩ fun _ => []).steps ∧
    (process_one ⟨true, none⟩
      ⟨false, ⟨[⟨512, 512, 6, "30/1"⟩]⟩, fun _ => 0⟩ fun _ => []).reassemblyRate
        = some (Rat.divInt 30 1) ∧
    ∀ q, Step.setpts q ∉ (process_one ⟨true, none⟩
      ⟨false, ⟨[⟨512, 512, 2, "30/1"⟩]⟩, fun _ => 0⟩ fun _ => []).steps := by
  have h6 := @speedup_policy ⟨true, none⟩
    ⟨false, ⟨[⟨512, 512, 6, "30/1"⟩]⟩, fun _ => 0⟩ (fun _ => [])
    ⟨512, 512, 6, "30/1"⟩ (Rat.divInt 30 1) (fun _ => rfl) rfl rfl
  have h2 := @speedup_policy ⟨true, none⟩
    ⟨false, ⟨[⟨512, 512, 2, "30/1"⟩]⟩, fun _ => 0⟩ (fun _ => [])
    ⟨512, 512, 2, "30/1"⟩ (Rat.divInt 30 1) (fun _ => rfl) rfl rfl
  refine ⟨(h6.1 (3 / 6)).mpr ⟨by norm_num, rfl⟩, ?_, ?_⟩
  · rw [h6.2, if_neg (by decide : ¬ ((Rat.divInt 30 1 : ℚ) > 30))]
  · intro q hq
    have := (h2.1 q).mp hq
    norm_num at this

end VideoToWebm

namespace VideoToWebm

/-- The frame-rate section never emits a nearest-neighbor prompt. -/
theorem fpsSection_no_nearest (cfg : Cfg) (stdin : ℕ → List Char) (k : ℕ)
    (fr : ℚ) (a : Bool) :
    Ev.nearestPrompt a ∉ (fpsSection cfg stdin k fr).1.events := by
  by_cases h : fr > 30
  · by_cases h2 : promptAnswer cfg stdin k true = true <;> simp [fpsSection, h, h2]
  · simp [fpsSection, h]

/-- The speed section never emits a nearest-neighbor prompt. -/
theorem speedSection_no_nearest (cfg : Cfg) (stdin : ℕ → List Char) (k : ℕ)
    (dur : ℚ) (a : Bool) :
    Ev.nearestPrompt a ∉ (speedSection cfg stdin k dur).events := by
  by_cases h : dur > 3
  · by_cases h2 : promptAnswer cfg stdin k true = true <;> simp [speedSection, h, h2]
  · simp [speedSection, h]

/-- The encode stage never emits a nearest-neighbor prompt. -/
theorem encodeStage_no_nearest (size : ℕ → ℕ) (a : Bool) :
    Ev.nearestPrompt a ∉ (encodeStage size).events := by
  intro h
  have := encodeStage_stage3 size _ h
  simp [stageOf] at this

/-- When the scale section does not abort, its events and steps are contained
in those of the whole planning stage, and every nearest-neighbor prompt of the
planning stage comes from the scale section. -/
theorem planStage_scale_mem (cfg : Cfg) (stdin : ℕ → List Char) (k : ℕ)
    (st : FFProbeInfoStream) (fr : ℚ)
    (hna : (scaleSection cfg stdin k st).aborted = false) :
    (∀ e ∈ (scaleSection cfg stdin k st).events, e ∈ (planStage cfg stdin k st fr).events) ∧
    (∀ s ∈ (scaleSection cfg stdin k st).steps, s ∈ (planStage cfg stdin k st fr).steps) ∧
    (∀ a, Ev.nearestPrompt a ∈ (planStage cfg stdin k st fr).events →
      Ev.nearestPrompt a ∈ (scaleSection cfg stdin k st).events) := by
  simp only [planStage, hna, Bool.false_eq_true, if_false]
  by_cases hf : (fpsSection cfg stdin (scaleSection cfg stdin k st).k fr).1.aborted = true
  · simp only [hf, if_true]
    refine ⟨fun e he => List.mem_append.mpr (Or.inl he),
      fun s hs => List.mem_append.mpr (Or.inl hs), ?_⟩
    intro a ha
    rcases List.mem_append.mp ha with h | h
    · exact h
    · exact absurd h (fpsSection_no_nearest _ _ _ _ a)
  · simp only [hf, Bool.false_eq_true, if_false]
    by_cases hp : (speedSection cfg stdin
        (fpsSection cfg stdin (scaleSection cfg stdin k st).k fr).1.k st.duration).aborted = true <;>
    · simp only [hp, if_true, Bool.false_eq_true, if_false]
      refine ⟨fun e he => List.mem_append.mpr (Or.inl (List.mem_append.mpr (Or.inl he))),
        fun s hs => List.mem_append.mpr (Or.inl (List.mem_append.mpr (Or.inl hs))), ?_⟩
      intro a ha
      rcases List.mem_append.mp ha with h | h
      · rcases List.mem_append.mp h with h2 | h2
        · exact h2
        · exact absurd h2 (fpsSection_no_nearest _ _ _ _ a)
      · exact absurd h (speedSection_no_nearest _ _ _ _ a)

/-- Past the overwrite gate, the run's events extend the planning events, its
steps are exactly the planning steps, and every nearest-neighbor prompt of the
run comes from the planning stage. -/
theorem probeOnward_plan_events (cfg : Cfg) (env : Env) (stdin : ℕ → List Char)
    (k : ℕ) (st : FFProbeInfoStream) (fr : ℚ)
    (hs : firstStream env.info = ParseOut.ok st)
    (hf : parseFrameRate st.avg_frame_rate = ParseOut.ok fr) :
    (∀ e ∈ (planStage cfg stdin k st fr).events, e ∈ (probeOnward cfg env stdin k).events) ∧
    (probeOnward cfg env stdin k).steps = (planStage cfg stdin k st fr).steps ∧
    (∀ a, Ev.nearestPrompt a ∈ (probeOnward cfg env stdin k).events →
       Ev.nearestPrompt a ∈ (planStage cfg stdin k st fr).events) := by
  simp only [probeOnward, hs, hf]
  cases hab : (planStage cfg stdin k st fr).aborted with
  | some o =>
      refine ⟨fun e he => List.mem_cons_of_mem _ he, rfl, ?_⟩
      intro a ha
      rcases List.mem_cons.mp ha with h | h
      · exact absurd h (by simp)
      · exact h
  | none =>
      refine ⟨fun e he => List.mem_cons_of_mem _ (List.mem_append.mpr (Or.inl he)), rfl, ?_⟩
      intro a ha
      rcases List.mem_cons.mp ha with h | h
      · exact absurd h (by simp)
      · rcases List.mem_append.mp h with h2 | h2
        · exact h2
        · exact absurd h2 (encodeStage_no_nearest env.size a)

/-- C3 (corrected): when the frame is not 512×512 and the scale gate is
accepted, the code consults the nearest-neighbor gate only when the policy
flag is unset (and then with the gate's own default, yes); when the flag was
explicitly set, no nearest-neighbor question is ever asked and the flag's
value is used directly in the scale step. -/
theorem nearest_flag_behavior {cfg : Cfg} {env : Env} {stdin : ℕ → List Char}
    {st : FFProbeInfoStream} {fr : ℚ}
    (henv : env.outputExists = false)
    (hs : firstStream env.info = ParseOut.ok st)
    (hf : parseFrameRate st.avg_frame_rate = ParseOut.ok fr)
    (htrig : st.width ≠ 512 ∨ st.height ≠ 512)
    (hacc : promptAnswer cfg stdin 0 true = true) :
    (∀ b, cfg.nearest = some b →
       (∀ a, Ev.nearestPrompt a ∉ (process_one cfg env stdin).events) ∧
       Step.scale (if st.width > st.height then 512 else -1)
         (if st.width > st.height then -1 else 512) b
           ∈ (process_one cfg env stdin).steps) ∧
    (cfg.nearest = none →
       Ev.nearestPrompt (promptAnswer cfg stdin (lineCost cfg) true)
         ∈ (process_one cfg env stdin).events) := by
  have hpo : process_one cfg env stdin = probeOnward cfg env stdin 0 := by
    simp [process_one, henv]
  obtain ⟨hup, hsteps, hdown⟩ := probeOnward_plan_events cfg env stdin 0 st fr hs hf
  rw [hpo, hsteps]
  refine ⟨?_, ?_⟩
  · intro b hb
    have hsc : scaleSection cfg stdin 0 st =
        { steps := [Step.scale (if st.width > st.height then 512 else -1)
            (if st.width > st.height then -1 else 512) b],
          k := lineCost cfg, events := [Ev.scalePrompt true], aborted := false } := by
      simp [scaleSection, htrig, hacc, hb]
    obtain ⟨hme, hms, hnn⟩ := planStage_scale_mem cfg stdin 0 st fr (by rw [hsc])
    constructor
    · intro a ha
      have h2 := hnn a (hdown a ha)
      rw [hsc] at h2
      simp at h2
    · apply hms
      rw [hsc]
      exact List.mem_singleton.mpr rfl
  · intro hb
    have hsc : scaleSection cfg stdin 0 st =
        { steps := [Step.scale (if st.width > st.height then 512 else -1)
            (if st.width > st.height then -1 else 512)
            (promptAnswer cfg stdin (lineCost cfg) true)],
          k := lineCost cfg + lineCost cfg,
          events := [Ev.scalePrompt true,
            Ev.nearestPrompt (promptAnswer cfg stdin (lineCost cfg) true)],
          aborted := false } := by
      simp [scaleSection, htrig, hacc, hb]
    obtain ⟨hme, hms, hnn⟩ := planStage_scale_mem cfg stdin 0 st fr (by rw [hsc])
    apply hup
    apply hme
    rw [hsc]
    simp

/-- Counterexample for C3 as stated: with the nearest-neighbor flag explicitly
set to false and the scale gate answered yes interactively, the scale step is
applied with the flag's value, the job succeeds, and yet no nearest-neighbor
question is ever asked, contradicting "the gate question is still asked". -/
theorem nearest_gate_skipped_cex :
    (∀ a, Ev.nearestPrompt a ∉ (process_one ⟨false, some false⟩
        ⟨false, ⟨[⟨100, 100, 2, "30/1"⟩]⟩, fun _ => 0⟩ fun _ => ['y']).events) ∧
    Step.scale (-1) 512 false ∈ (process_one ⟨false, some false⟩
        ⟨false, ⟨[⟨100, 100, 2, "30/1"⟩]⟩, fun _ => 0⟩ fun _ => ['y']).steps ∧
    (process_one ⟨false, some false⟩
        ⟨false, ⟨[⟨100, 100, 2, "30/1"⟩]⟩, fun _ => 0⟩ fun _ => ['y']).outcome
      = Outcome.success ∧
    Ev.scalePrompt true ∈ (process_one ⟨false, some false⟩
        ⟨false, ⟨[⟨100, 100, 2, "30/1"⟩]⟩, fun _ => 0⟩ fun _ => ['y']).events :=
  ⟨by decide, by decide, by decide, by decide⟩

end VideoToWebm

namespace VideoToWebm

/-- Prepending the overwrite gate keeps the event list sorted by stage. -/
theorem pairwise_cons_overwrite (b : Bool) (l : List Ev)
    (h : l.Pairwise (fun a b => stageOf a ≤ stageOf b)) :
    (Ev.overwritePrompt b :: l).Pairwise (fun a b => stageOf a ≤ stageOf b) := by
  refine List.Pairwise.cons ?_ h
  intro y hy
  exact Nat.zero_le _

/-- The events past the overwrite gate are sorted by stage. -/
theorem probeOnward_pairwise (cfg : Cfg) (env : Env) (stdin : ℕ → List Char) (k : ℕ) :
    ((probeOnward cfg env stdin k).events).Pairwise (fun a b => stageOf a ≤ stageOf b) := by
  obtain ⟨pe, ee, hev, h2, h3⟩ := probeOnward_events cfg env stdin k
  rw [hev]
  refine List.Pairwise.cons ?_ (pairwise_plan_encode pe ee h2 h3)
  intro y hy
  rcases List.mem_append.mp hy with h | h
  · rw [h2 y h]; decide
  · rw [h3 y h]; decide

/-- The pipeline past the overwrite gate never emits an overwrite-gate
event. -/
theorem probeOnward_no_overwrite (cfg : Cfg) (env : Env) (stdin : ℕ → List Char)
    (k : ℕ) (b : Bool) :
    Ev.overwritePrompt b ∉ (probeOnward cfg env stdin k).events := by
  obtain ⟨pe, ee, hev, h2, h3⟩ := probeOnward_events cfg env stdin k
  rw [hev]
  intro h
  rcases List.mem_cons.mp h with h | h
  · cases h
  · rcases List.mem_append.mp h with h | h
    · have := h2 _ h; simp [stageOf] at this
    · have := h3 _ h; simp [stageOf] at this

/-- The pipeline past the overwrite gate always performs the probe. -/
theorem probeOnward_has_probe (cfg : Cfg) (env : Env) (stdin : ℕ → List Char)
    (k : ℕ) : Ev.probe ∈ (probeOnward cfg env stdin k).events := by
  obtain ⟨pe, ee, hev, -, -⟩ := probeOnward_events cfg env stdin k
  rw [hev]
  exact List.mem_cons_self _ _

/-- C1 (corrected): the stages of every job run in the order overwrite gate
(consulted exactly when the output file exists) → probe → planning → encode:
the event trace is sorted by stage, the overwrite gate appears exactly when
the output file exists, and the probe happens in every run that is not skipped
by the overwrite gate.  In particular, the overwrite-confirmation gate is
consulted before the media probe runs, not after. -/
theorem stage_order (cfg : Cfg) (env : Env) (stdin : ℕ → List Char) :
    ((process_one cfg env stdin).events).Pairwise (fun a b => stageOf a ≤ stageOf b) ∧
    ((∃ b, Ev.overwritePrompt b ∈ (process_one cfg env stdin).events)
        ↔ env.outputExists = true) ∧
    (Ev.probe ∈ (process_one cfg env stdin).events
        ↔ (process_one cfg env stdin).outcome ≠ Outcome.skipped) := by
  simp only [process_one]
  by_cases hx : env.outputExists = true
  · simp only [hx, if_true]
    cases hans : promptAnswer cfg stdin 0 true with
    | false =>
        simp only [Bool.false_eq_true, if_false]
        refine ⟨List.pairwise_singleton _ _, ?_, ?_⟩
        · exact ⟨fun _ => trivial, fun _ => ⟨false, List.mem_singleton.mpr rfl⟩⟩
        · simp
    | true =>
        simp only [if_true]
        refine ⟨?_, ?_, ?_⟩
        · exact pairwise_cons_overwrite true _
            (probeOnward_pairwise cfg env stdin (lineCost cfg))
        · exact ⟨fun _ => trivial, fun _ => ⟨true, List.mem_cons_self _ _⟩⟩
        · constructor
          · intro _
            exact probeOnward_outcome_ne_skipped cfg env stdin (lineCost cfg)
          · intro _
            exact List.mem_cons_of_mem _
              (probeOnward_has_probe cfg env stdin (lineCost cfg))
  · rw [if_neg hx]
    refine ⟨probeOnward_pairwise cfg env stdin 0, ?_, ?_⟩
    · constructor
      · rintro ⟨b, hb⟩
        exact absurd hb (probeOnward_no_overwrite cfg env stdin 0 b)
      · intro h
        exact absurd h hx
    · exact ⟨fun _ => probeOnward_outcome_ne_skipped cfg env stdin 0,
        fun _ => probeOnward_has_probe cfg env stdin 0⟩

/-- Counterexample for C1 as stated: on a job whose output file already
exists, the overwrite gate event has index 0 in the trace and the probe event
index 1, so the media probe does not run before the overwrite gate is
consulted — the gate comes first. -/
theorem probe_after_overwrite_cex :
    (process_one ⟨true, none⟩ ⟨true, ⟨[⟨512, 512, 2, "30/1"⟩]⟩, fun _ => 0⟩
        fun _ => []).events
      = [Ev.overwritePrompt true, Ev.probe, Ev.pngExtract, Ev.encodeAttempt 0] ∧
    ((process_one ⟨true, none⟩ ⟨true, ⟨[⟨512, 512, 2, "30/1"⟩]⟩, fun _ => 0⟩
        fun _ => []).events).findIdx isOverwriteEv = 0 ∧
    ((process_one ⟨true, none⟩ ⟨true, ⟨[⟨512, 512, 2, "30/1"⟩]⟩, fun _ => 0⟩
        fun _ => []).events).findIdx isProbeEv = 1 ∧
    ¬ (((process_one ⟨true, none⟩ ⟨true, ⟨[⟨512, 512, 2, "30/1"⟩]⟩, fun _ => 0⟩
        fun _ => []).events).findIdx isProbeEv
      < ((process_one ⟨true, none⟩ ⟨true, ⟨[⟨512, 512, 2, "30/1"⟩]⟩, fun _ => 0⟩
        fun _ => []).events).findIdx isOverwriteEv) :=
  ⟨by decide, by decide, by decide, by decide⟩

end VideoToWebm

namespace VideoToWebm

/-- Witness for the corrected C3: with the flag explicitly set to true and the
scale gate accepted interactively, no nearest-neighbor question is asked and
the scale step carries the flag's value. -/
theorem nearest_flag_behavior_witness :
    (∀ a, Ev.nearestPrompt a ∉ (process_one ⟨false, some true⟩
        ⟨false, ⟨[⟨100, 100, 2, "30/1"⟩]⟩, fun _ => 0⟩ fun _ => ['y']).events) ∧
    Step.scale (-1) 512 true ∈ (process_one ⟨false, some true⟩
        ⟨false, ⟨[⟨100, 100, 2, "30/1"⟩]⟩, fun _ => 0⟩ fun _ => ['y']).steps := by
  have h := (@nearest_flag_behavior ⟨false, some true⟩
    ⟨false, ⟨[⟨100, 100, 2, "30/1"⟩]⟩, fun _ => 0⟩ (fun _ => ['y'])
    ⟨100, 100, 2, "30/1"⟩ (Rat.divInt 30 1)
    rfl rfl rfl (by decide) (by decide)).1 true rfl
  refine ⟨h.1, ?_⟩
  have h2 := h.2
  norm_num at h2
  exact h2

end VideoToWebm
